import Mathlib

/-!
Verification of a GPU-accelerated 3D FDTD electromagnetic solver (`src/main.rs`).

The host program is shallowly embedded: compile-time constants become Lean
constants (machine floats idealized as exact rationals/reals), the pure helper
functions `idx`, `build_coefficients`, `gaussian_source` become Lean functions,
and the GPU-facing control flow of `run` (bind-group construction, the
per-step command encoding, submission and blocking readback) becomes an
explicit event trace over a small datatype of host events and GPU commands.
-/

namespace FDTD

-- ── simulation parameters (src/main.rs:17-21) ──

def NX : ℕ := 64
def NY : ℕ := 64
def NZ : ℕ := 64
def TOTAL : ℕ := NX * NY * NZ
def MAX_TIME : ℕ := 300

-- ── physical constants (src/main.rs:24-35), f64 idealized as ℚ ──

def C0 : ℚ := 3.0e8
def EPS0 : ℚ := 8.854187817e-12
def MU0 : ℚ := 1.2566370614e-6

def DX : ℚ := 1e-3
def DY : ℚ := DX
def DZ : ℚ := DX

def SC : ℚ := 0.5
def DT : ℚ := SC * DX / C0

-- ── source and probe locations (src/main.rs:38-47) ──

def SRC_I : ℕ := NX / 2
def SRC_J : ℕ := NY / 2
def SRC_K : ℕ := NZ / 2
def PULSE_WIDTH : ℚ := 20.0
def PULSE_DELAY : ℚ := 40.0

def PROBE_I : ℕ := NX / 2 + 10
def PROBE_J : ℕ := NY / 2
def PROBE_K : ℕ := NZ / 2

/-- `idx` (src/main.rs:66-68): linearize a 3D coordinate. The Rust code computes
`(i + NX * (j + NY * k)) as usize` in `u32` arithmetic, which wraps modulo `2^32`. -/
def idx (i j k : ℕ) : ℕ := (i + NX * (j + NY * k)) % 2 ^ 32

/-- `build_coefficients` (src/main.rs:72-84): free-space material coefficient maps,
returned in source order `(ca, cb, cp, cq)`. -/
def build_coefficients : List ℚ × List ℚ × List ℚ × List ℚ :=
  let ca_val : ℚ := 1
  let cb_val : ℚ := DT / EPS0
  let cp_val : ℚ := 1
  let cq_val : ℚ := DT / MU0
  (List.replicate TOTAL ca_val, List.replicate TOTAL cb_val,
   List.replicate TOTAL cp_val, List.replicate TOTAL cq_val)

/-- `gaussian_source` (src/main.rs:87-90): Gaussian pulse value at time step `n`,
float arithmetic idealized over ℝ. -/
noncomputable def gaussian_source (n : ℕ) : ℝ :=
  let t : ℝ := (n : ℝ) - (PULSE_DELAY : ℝ)
  Real.exp (-(t * t) / ((PULSE_WIDTH : ℝ) * (PULSE_WIDTH : ℝ)))

-- ── GPU uniform record (src/main.rs:51-62, 169-183) ──

/-- `GpuParams` (src/main.rs:51-62): the `#[repr(C)]` host-packed uniform record,
fields in declaration order; `u32` idealized as ℕ, `f32` as ℚ. -/
structure GpuParams where
  nx : ℕ
  ny : ℕ
  nz : ℕ
  _pad : ℕ
  inv_dx : ℚ
  inv_dy : ℚ
  inv_dz : ℚ
  _pad2 : ℚ

/-- The concrete `params` value built in `run` (src/main.rs:169-178). -/
def params : GpuParams :=
  { nx := NX, ny := NY, nz := NZ, _pad := 0,
    inv_dx := 1 / DX, inv_dy := 1 / DY, inv_dz := 1 / DZ, _pad2 := 0 }

/-- Scalar type of one 4-byte record field. -/
inductive ScalarTy
  | u32
  | f32
deriving DecidableEq

/-- Field layout of `GpuParams`, one entry per declared field in order
(src/main.rs:53-62): nx, ny, nz, _pad are u32; inv_dx, inv_dy, inv_dz, _pad2 are f32. -/
def gpuParamsLayout : List ScalarTy :=
  [.u32, .u32, .u32, .u32, .f32, .f32, .f32, .f32]

/-- Modelled from the spec: the kernel-side `Params` uniform block declared in the
WGSL shader sources (`src/shaders/update_h.wgsl`, `update_e.wgsl`, not present under
`src/`) — "three unsigned grid-dimension fields, one padding field, three
single-precision inverse-spacing fields, one trailing padding field". -/
def kernelParamsLayout : List ScalarTy :=
  [.u32, .u32, .u32, .u32, .f32, .f32, .f32, .f32]

def scalarByteSize : ScalarTy → ℕ := fun _ => 4

def layoutByteSize (l : List ScalarTy) : ℕ := (l.map scalarByteSize).sum

-- ── buffers, bind groups (src/main.rs:141-166, 204-288) ──

/-- The GPU buffers created in `run` (src/main.rs:155-191). -/
inductive Buf
  | ex | ey | ez | hx | hy | hz
  | ca | cb | cp | cq
  | params | readback
deriving DecidableEq

/-- The two compute pipelines (src/main.rs:239-254). -/
inductive Pipe
  | updateH
  | updateE
deriving DecidableEq

/-- Names for the two bind groups `bg_h`, `bg_e` (src/main.rs:259-288). -/
inductive BG
  | h
  | e
deriving DecidableEq

/-- Binding type of one bind-group-layout slot. -/
inductive BindingTy
  | uniform
  | storageRO
  | storageRW
deriving DecidableEq

/-- `bgl` (src/main.rs:205-231): binding 0 uniform, 1-3 read-only storage,
4-6 read-write storage, 7-8 read-only storage. -/
def bgl : List (ℕ × BindingTy) :=
  [(0, .uniform),
   (1, .storageRO), (2, .storageRO), (3, .storageRO),
   (4, .storageRW), (5, .storageRW), (6, .storageRW),
   (7, .storageRO), (8, .storageRO)]

/-- `bg_h` (src/main.rs:259-273): binding index ↦ buffer. -/
def bg_h : List (ℕ × Buf) :=
  [(0, .params),
   (1, .ex), (2, .ey), (3, .ez),
   (4, .hx), (5, .hy), (6, .hz),
   (7, .cp), (8, .cq)]

/-- `bg_e` (src/main.rs:274-288): binding index ↦ buffer. -/
def bg_e : List (ℕ × Buf) :=
  [(0, .params),
   (1, .hx), (2, .hy), (3, .hz),
   (4, .ex), (5, .ey), (6, .ez),
   (7, .ca), (8, .cb)]

def bindGroup : BG → List (ℕ × Buf)
  | .h => bg_h
  | .e => bg_e

/-- Buffers bound in the slot range `[lo, hi]` of a bind group, in binding order. -/
def slotBufs (bg : List (ℕ × Buf)) (lo hi : ℕ) : List Buf :=
  (bg.filter fun en => decide (lo ≤ en.1) && decide (en.1 ≤ hi)).map Prod.snd

/-- The three input (read-only storage) slots, bindings 1-3. -/
def inputBufs (bg : List (ℕ × Buf)) : List Buf := slotBufs bg 1 3

/-- The three output (read-write storage) slots, bindings 4-6. -/
def outputBufs (bg : List (ℕ × Buf)) : List Buf := slotBufs bg 4 6

/-- The two coefficient slots, bindings 7-8. -/
def coefBufs (bg : List (ℕ × Buf)) : List Buf := slotBufs bg 7 8

-- ── workgroup counts and byte offsets (src/main.rs:290-298) ──

/-- The workgroup-count expression `(extent + 3) / 4` from src/main.rs:291-293,
abstracted over the grid extent (the kernels use `workgroup_size` 4×4×4). -/
def wgCount (n : ℕ) : ℕ := (n + 3) / 4

def wg_x : ℕ := wgCount NX
def wg_y : ℕ := wgCount NY
def wg_z : ℕ := wgCount NZ

/-- `src_byte_offset` (src/main.rs:298). -/
def srcByteOffset : ℕ := idx SRC_I SRC_J SRC_K * 4

/-- `probe_byte_offset` (src/main.rs:297). -/
def probeByteOffset : ℕ := idx PROBE_I PROBE_J PROBE_K * 4

-- ── the host event trace of `run` (src/main.rs:256-352) ──

/-- GPU commands recorded into one command encoder. -/
inductive Cmd
  | dispatch (p : Pipe) (b : BG) (x y z : ℕ)
  | copyBufferToBuffer (src : Buf) (srcOff : ℕ) (dst : Buf) (dstOff : ℕ) (size : ℕ)

/-- Host-side events of `run`, in program order. -/
inductive HostEvent
  | createBindGroup (b : BG)
  | writeBuffer (b : Buf) (off : ℕ) (val : ℝ)
  | submit (cs : List Cmd)
  | blockingMapRead (b : Buf)

/-- Setup events before the time loop: the two `create_bind_group` calls
(src/main.rs:259, 274). -/
def setupTrace : List HostEvent :=
  [.createBindGroup .h, .createBindGroup .e]

/-- The body of iteration `n` of the time loop (src/main.rs:300-352): source write
into Ez, one submitted command buffer holding the H dispatch, the E dispatch and
the probe copy-out, then the blocking map/poll/read of the staging buffer. -/
noncomputable def stepTrace (n : ℕ) : List HostEvent :=
  [.writeBuffer .ez srcByteOffset (gaussian_source n),
   .submit
     [.dispatch .updateH .h wg_x wg_y wg_z,
      .dispatch .updateE .e wg_x wg_y wg_z,
      .copyBufferToBuffer .ez probeByteOffset .readback 0 4],
   .blockingMapRead .readback]

/-- All loop iterations `n = 0, …, MAX_TIME - 1` in order (src/main.rs:300). -/
noncomputable def loopTrace : List HostEvent :=
  (List.range MAX_TIME).flatMap stepTrace

/-- The full host trace of `run`: setup, then the loop. -/
noncomputable def runTrace : List HostEvent := setupTrace ++ loopTrace

def isCreateBindGroup : HostEvent → Bool
  | .createBindGroup _ => true
  | _ => false

def isSubmit : HostEvent → Bool
  | .submit _ => true
  | _ => false

/-- Scan a trace tracking whether a submitted command sequence is still in flight;
`true` iff no submit happens while a previous one is unretired (a blocking map
read retires the in-flight sequence). -/
def oneInFlightAux : Bool → List HostEvent → Bool
  | _, [] => true
  | inFlight, .submit _ :: rest =>
      if inFlight then false else oneInFlightAux true rest
  | _, .blockingMapRead _ :: rest => oneInFlightAux false rest
  | inFlight, _ :: rest => oneInFlightAux inFlight rest

def oneInFlight (t : List HostEvent) : Bool := oneInFlightAux false t

/-- Dispatches recorded in one command list, in order. -/
def cmdDispatches : List Cmd → List (Pipe × BG × ℕ × ℕ × ℕ)
  | [] => []
  | Cmd.dispatch p b x y z :: rest => (p, b, x, y, z) :: cmdDispatches rest
  | _ :: rest => cmdDispatches rest

/-- All dispatches submitted by a trace, in submission order. -/
def dispatchesOf : List HostEvent → List (Pipe × BG × ℕ × ℕ × ℕ)
  | [] => []
  | HostEvent.submit cs :: rest => cmdDispatches cs ++ dispatchesOf rest
  | _ :: rest => dispatchesOf rest

-- ── device buffer contents (src/main.rs:137-166, 300-303) ──

/-- `zeros` (src/main.rs:137): the initial contents of every field buffer. -/
def zeros : List ℝ := List.replicate TOTAL 0

/-- Initial contents of each storage buffer, per the `make_buf` calls
(src/main.rs:155-166): the six field buffers from `zeros`, the four coefficient
buffers from `build_coefficients`; the uniform and staging buffers hold no f32
field array and are modelled empty. -/
noncomputable def bufferInit : Buf → List ℝ
  | .ex => zeros
  | .ey => zeros
  | .ez => zeros
  | .hx => zeros
  | .hy => zeros
  | .hz => zeros
  | .ca => build_coefficients.1.map fun q => (q : ℝ)
  | .cb => build_coefficients.2.1.map fun q => (q : ℝ)
  | .cp => build_coefficients.2.2.1.map fun q => (q : ℝ)
  | .cq => build_coefficients.2.2.2.map fun q => (q : ℝ)
  | .params => []
  | .readback => []

/-- The effect of the per-step source injection
`queue.write_buffer(&buf_ez, src_byte_offset, bytes_of(&src_val))`
(src/main.rs:303) on the device buffer state, at f32-cell granularity: it
overwrites the single Ez cell at index `idx SRC_I SRC_J SRC_K` and touches no
other buffer. -/
def injectSource (s : Buf → List ℝ) (v : ℝ) : Buf → List ℝ :=
  fun b => if b = .ez then (s .ez).set (idx SRC_I SRC_J SRC_K) v else s b

/-- Binding types declared in `bgl` for the slot range `[lo, hi]`, in binding order. -/
def slotTys (lo hi : ℕ) : List BindingTy :=
  (bgl.filter fun en => decide (lo ≤ en.1) && decide (en.1 ≤ hi)).map Prod.snd

-- ── helper lemmas ──

lemma all_replicate {α : Type} (p : α → Bool) (a : α) (n : ℕ) (h : p a = true) :
    (List.replicate n a).all p = true := by
  induction n with
  | zero => rfl
  | succ n ih => simp [List.replicate_succ, h, ih]

lemma zeros_length : zeros.length = TOTAL := by simp [zeros]

lemma build_coefficients_eq :
    build_coefficients =
      (List.replicate TOTAL 1, List.replicate TOTAL (DT / EPS0),
       List.replicate TOTAL 1, List.replicate TOTAL (DT / MU0)) := rfl

lemma countP_createBindGroup_stepTrace (n : ℕ) :
    List.countP isCreateBindGroup (stepTrace n) = 0 := rfl

lemma countP_createBindGroup_flatMap (l : List ℕ) :
    List.countP isCreateBindGroup (l.flatMap stepTrace) = 0 := by
  induction l with
  | nil => rfl
  | cons a l ih =>
      rw [List.flatMap_cons, List.countP_append, countP_createBindGroup_stepTrace, ih]

lemma countP_createBindGroup_loopTrace :
    List.countP isCreateBindGroup loopTrace = 0 :=
  countP_createBindGroup_flatMap _

lemma countP_submit_stepTrace (n : ℕ) :
    List.countP isSubmit (stepTrace n) = 1 := rfl

lemma countP_submit_flatMap (l : List ℕ) :
    List.countP isSubmit (l.flatMap stepTrace) = l.length := by
  induction l with
  | nil => rfl
  | cons a l ih =>
      rw [List.flatMap_cons, List.countP_append, countP_submit_stepTrace, ih,
        List.length_cons]
      omega

lemma countP_submit_loopTrace : List.countP isSubmit loopTrace = MAX_TIME := by
  show List.countP isSubmit ((List.range MAX_TIME).flatMap stepTrace) = MAX_TIME
  rw [countP_submit_flatMap, List.length_range]

lemma oneInFlightAux_stepTrace (n : ℕ) (rest : List HostEvent) :
    oneInFlightAux false (stepTrace n ++ rest) = oneInFlightAux false rest := rfl

lemma oneInFlightAux_createBindGroup (b : BG) (inF : Bool) (rest : List HostEvent) :
    oneInFlightAux inF (HostEvent.createBindGroup b :: rest) = oneInFlightAux inF rest := by
  cases inF <;> rfl

lemma oneInFlight_flatMap (l : List ℕ) :
    oneInFlightAux false (l.flatMap stepTrace) = true := by
  induction l with
  | nil => rfl
  | cons a l ih => rw [List.flatMap_cons, oneInFlightAux_stepTrace]; exact ih

-- ── claim theorems ──

/-- C1: the H binding set binds Ex,Ey,Ez in the three read-only input slots
(bindings 1-3), Hx,Hy,Hz in the three read-write output slots (bindings 4-6)
and CP,CQ in the coefficient slots (bindings 7-8); the E binding set binds
Hx,Hy,Hz as inputs, Ex,Ey,Ez as outputs and CA,CB as coefficients; in each
binding set no buffer is both an input and an output; and exactly two
bind-group creations occur in the whole run, both in the setup phase before the
time loop, none inside it. -/
theorem bind_group_wiring :
    slotTys 1 3 = [.storageRO, .storageRO, .storageRO] ∧
    slotTys 4 6 = [.storageRW, .storageRW, .storageRW] ∧
    slotTys 7 8 = [.storageRO, .storageRO] ∧
    inputBufs bg_h = [Buf.ex, Buf.ey, Buf.ez] ∧
    outputBufs bg_h = [Buf.hx, Buf.hy, Buf.hz] ∧
    coefBufs bg_h = [Buf.cp, Buf.cq] ∧
    inputBufs bg_e = [Buf.hx, Buf.hy, Buf.hz] ∧
    outputBufs bg_e = [Buf.ex, Buf.ey, Buf.ez] ∧
    coefBufs bg_e = [Buf.ca, Buf.cb] ∧
    ((inputBufs bg_h).all fun b => !(outputBufs bg_h).contains b) = true ∧
    ((inputBufs bg_e).all fun b => !(outputBufs bg_e).contains b) = true ∧
    List.countP isCreateBindGroup runTrace = 2 ∧
    List.countP isCreateBindGroup loopTrace = 0 ∧
    runTrace = setupTrace ++ loopTrace := by
  refine ⟨rfl, rfl, rfl, rfl, rfl, rfl, rfl, rfl, rfl, rfl, rfl, ?_, ?_, rfl⟩
  · show List.countP isCreateBindGroup (setupTrace ++ loopTrace) = 2
    have h2 : List.countP isCreateBindGroup setupTrace = 2 := rfl
    rw [List.countP_append, h2, countP_createBindGroup_loopTrace]
  · exact countP_createBindGroup_loopTrace

/-- C2: every loop iteration `n` emits, in strict order, the source write into
Ez, one submission containing the H dispatch then the E dispatch then the probe
copy-out, and then a blocking host read of the staging buffer; the full run
trace is the setup followed by the iterations in order; there are exactly
`MAX_TIME` submissions, and at no point is a second command sequence submitted
while one is still in flight. -/
theorem step_protocol_order :
    (∀ n : ℕ, stepTrace n =
      [HostEvent.writeBuffer Buf.ez srcByteOffset (gaussian_source n),
       HostEvent.submit
         [Cmd.dispatch Pipe.updateH BG.h wg_x wg_y wg_z,
          Cmd.dispatch Pipe.updateE BG.e wg_x wg_y wg_z,
          Cmd.copyBufferToBuffer Buf.ez probeByteOffset Buf.readback 0 4],
       HostEvent.blockingMapRead Buf.readback]) ∧
    runTrace = setupTrace ++ loopTrace ∧
    loopTrace = (List.range MAX_TIME).flatMap stepTrace ∧
    List.countP isSubmit runTrace = MAX_TIME ∧
    oneInFlight runTrace = true := by
  refine ⟨fun n => rfl, rfl, rfl, ?_, ?_⟩
  · show List.countP isSubmit (setupTrace ++ loopTrace) = MAX_TIME
    have h0 : List.countP isSubmit setupTrace = 0 := rfl
    rw [List.countP_append, h0, countP_submit_loopTrace]
    exact Nat.zero_add MAX_TIME
  · show oneInFlightAux false (setupTrace ++ loopTrace) = true
    have hsetup : setupTrace ++ loopTrace =
        HostEvent.createBindGroup BG.h :: HostEvent.createBindGroup BG.e :: loopTrace := rfl
    rw [hsetup, oneInFlightAux_createBindGroup, oneInFlightAux_createBindGroup]
    show oneInFlightAux false ((List.range MAX_TIME).flatMap stepTrace) = true
    exact oneInFlight_flatMap (List.range MAX_TIME)

/-- C3: the source waveform is `exp (-(((n - delay) / width)^2))` with
`delay = 40` and `width = 20`; it is symmetric about the delay; and its peak
value at `n = delay` is exactly 1. -/
theorem gaussian_source_spec :
    (PULSE_DELAY = 40 ∧ PULSE_WIDTH = 20) ∧
    (∀ n : ℕ, gaussian_source n =
      Real.exp (-((((n : ℝ) - (PULSE_DELAY : ℝ)) / (PULSE_WIDTH : ℝ)) ^ 2))) ∧
    (∀ d : ℕ, d ≤ 40 → gaussian_source (40 - d) = gaussian_source (40 + d)) ∧
    gaussian_source 40 = 1 := by
  refine ⟨⟨by norm_num [PULSE_DELAY], by norm_num [PULSE_WIDTH]⟩, ?_, ?_, ?_⟩
  · intro n
    simp only [gaussian_source, PULSE_DELAY, PULSE_WIDTH]
    congr 1
    field_simp
    ring
  · intro d hd
    simp only [gaussian_source, PULSE_DELAY]
    congr 1
    have hcast : ((40 - d : ℕ) : ℝ) = 40 - (d : ℝ) := by push_cast [hd]; ring
    push_cast [hcast]
    ring
  · simp only [gaussian_source, PULSE_DELAY, PULSE_WIDTH]
    norm_num

theorem gaussian_source_spec_witness :
    gaussian_source (40 - 7) = gaussian_source (40 + 7) :=
  gaussian_source_spec.2.2.1 7 (by norm_num)

/-- C4: `build_coefficients` returns four arrays each of length `NX * NY * NZ`;
every CA and CP cell is 1, every CB cell is the constant `DT / EPS0` and every
CQ cell the constant `DT / MU0`, and both constants are strictly positive. -/
theorem build_coefficients_spec :
    build_coefficients.1.length = NX * NY * NZ ∧
    build_coefficients.2.1.length = NX * NY * NZ ∧
    build_coefficients.2.2.1.length = NX * NY * NZ ∧
    build_coefficients.2.2.2.length = NX * NY * NZ ∧
    (build_coefficients.1.all fun x => decide (x = 1)) = true ∧
    (build_coefficients.2.2.1.all fun x => decide (x = 1)) = true ∧
    (build_coefficients.2.1.all fun x => decide (x = DT / EPS0)) = true ∧
    (build_coefficients.2.2.2.all fun x => decide (x = DT / MU0)) = true ∧
    0 < DT / EPS0 ∧ 0 < DT / MU0 := by
  refine ⟨?_, ?_, ?_, ?_, ?_, ?_, ?_, ?_, ?_, ?_⟩
  · rw [build_coefficients_eq]
    simp [TOTAL]
  · rw [build_coefficients_eq]
    simp [TOTAL]
  · rw [build_coefficients_eq]
    simp [TOTAL]
  · rw [build_coefficients_eq]
    simp [TOTAL]
  · rw [build_coefficients_eq]
    exact all_replicate _ _ _ (by simp)
  · rw [build_coefficients_eq]
    exact all_replicate _ _ _ (by simp)
  · rw [build_coefficients_eq]
    exact all_replicate _ _ _ (by simp)
  · rw [build_coefficients_eq]
    exact all_replicate _ _ _ (by simp)
  · norm_num [DT, SC, DX, C0, EPS0]
  · norm_num [DT, SC, DX, C0, MU0]

/-- C5: before step 0 all six field buffers are identically zero, and source
injection overwrites exactly the Ez cell at `idx SRC_I SRC_J SRC_K` with the
new value (a hard source, not additive), leaving every other Ez cell and every
other buffer unchanged. -/
theorem fields_zero_and_hard_source :
    (∀ b ∈ [Buf.ex, Buf.ey, Buf.ez, Buf.hx, Buf.hy, Buf.hz],
       ∀ x ∈ bufferInit b, x = 0) ∧
    (∀ (s : Buf → List ℝ) (v : ℝ),
       idx SRC_I SRC_J SRC_K < (s Buf.ez).length →
       (injectSource s v Buf.ez)[idx SRC_I SRC_J SRC_K]? = some v) ∧
    (∀ (s : Buf → List ℝ) (v : ℝ) (i : ℕ),
       i ≠ idx SRC_I SRC_J SRC_K →
       (injectSource s v Buf.ez)[i]? = (s Buf.ez)[i]?) ∧
    (∀ (s : Buf → List ℝ) (v : ℝ) (b : Buf), b ≠ Buf.ez →
       injectSource s v b = s b) := by
  refine ⟨?_, ?_, ?_, ?_⟩
  · intro b hb x hx
    fin_cases hb <;>
      · simp only [bufferInit, zeros] at hx
        exact List.eq_of_mem_replicate hx
  · intro s v h
    show ((s Buf.ez).set (idx SRC_I SRC_J SRC_K) v)[idx SRC_I SRC_J SRC_K]? = some v
    exact List.getElem?_set_self h
  · intro s v i hi
    show ((s Buf.ez).set (idx SRC_I SRC_J SRC_K) v)[i]? = (s Buf.ez)[i]?
    exact List.getElem?_set_ne (Ne.symm hi)
  · intro s v b hb
    simp [injectSource, hb]

theorem fields_zero_and_hard_source_witness :
    (0 : ℝ) = 0 ∧
    (injectSource (fun _ => zeros) 5 Buf.ez)[idx SRC_I SRC_J SRC_K]? = some 5 ∧
    (injectSource (fun _ => zeros) 5 Buf.ez)[0]? = zeros[0]? ∧
    injectSource (fun _ => zeros) 5 Buf.ex = zeros := by
  refine ⟨?_, ?_, ?_, ?_⟩
  · refine fields_zero_and_hard_source.1 Buf.ex (by simp) 0 ?_
    show (0 : ℝ) ∈ zeros
    simp only [zeros]
    rw [List.mem_replicate]
    exact ⟨by norm_num [TOTAL, NX, NY, NZ], rfl⟩
  · refine fields_zero_and_hard_source.2.1 (fun _ => zeros) 5 ?_
    show idx SRC_I SRC_J SRC_K < zeros.length
    rw [zeros_length]
    decide
  · exact fields_zero_and_hard_source.2.2.1 (fun _ => zeros) 5 0 (by decide)
  · exact fields_zero_and_hard_source.2.2.2 (fun _ => zeros) 5 Buf.ex (by decide)

/-- C6: the per-axis workgroup count `(extent + 3) / 4` is the ceiling of
`extent / 4`; it is 16 for extent 64 (the compiled-in grid) and 17 for
extent 65; and the H and E dispatches of every step use the same three counts
`(wg_x, wg_y, wg_z) = (16, 16, 16)`. -/
theorem workgroup_counts_spec :
    (∀ n : ℕ, wgCount n = n / 4 + (if n % 4 = 0 then 0 else 1)) ∧
    wgCount 64 = 16 ∧ wgCount 65 = 17 ∧
    wg_x = 16 ∧ wg_y = 16 ∧ wg_z = 16 ∧
    (∀ n : ℕ, dispatchesOf (stepTrace n) =
       [(Pipe.updateH, BG.h, wg_x, wg_y, wg_z),
        (Pipe.updateE, BG.e, wg_x, wg_y, wg_z)]) := by
  refine ⟨?_, rfl, rfl, rfl, rfl, rfl, fun n => rfl⟩
  intro n
  simp only [wgCount]
  by_cases h : n % 4 = 0 <;> simp [h] <;> omega

/-- C7: for in-grid coordinates, `idx` returns exactly `i + NX * (j + NY * k)`
(the `u32` wrap-around never fires there). -/
theorem idx_linearization :
    ∀ i j k : ℕ, i < NX → j < NY → k < NZ →
      idx i j k = i + NX * (j + NY * k) := by
  intro i j k hi hj hk
  simp only [NX, NY, NZ] at hi hj hk
  simp only [idx, NX, NY]
  have h : i + 64 * (j + 64 * k) < 2 ^ 32 := by norm_num; omega
  exact Nat.mod_eq_of_lt h

theorem idx_linearization_witness : idx 1 2 3 = 1 + NX * (2 + NY * 3) :=
  idx_linearization 1 2 3 (by decide) (by decide) (by decide)

/-- C8: the time step is `DT = SC * Δmin / C0` with `Δmin` the smallest cell
dimension (all three spacings equal `DX = 1 mm`), and the Courant number
`SC = 0.5` satisfies the 3D stability bound `SC ≤ 1 / √3`. -/
theorem dt_courant_spec :
    DT = SC * min DX (min DY DZ) / C0 ∧
    DX = 1 / 1000 ∧ DY = DX ∧ DZ = DX ∧ SC = 1 / 2 ∧
    (SC : ℝ) ≤ 1 / Real.sqrt 3 := by
  refine ⟨?_, by norm_num [DX], rfl, rfl, by norm_num [SC], ?_⟩
  · have hmin : min DX (min DY DZ) = DX := by
      rw [show DY = DX from rfl, show DZ = DX from rfl, min_self, min_self]
    rw [hmin]
    rfl
  · have hpos : 0 < Real.sqrt 3 := Real.sqrt_pos.mpr (by norm_num)
    have h3 : Real.sqrt 3 ≤ 2 := by
      nlinarith [Real.sq_sqrt (show (0:ℝ) ≤ 3 by norm_num), Real.sqrt_nonneg 3]
    have hsc : (SC : ℝ) = 1 / 2 := by norm_num [SC]
    rw [hsc]
    exact one_div_le_one_div_of_le hpos h3

/-- C9: the host-packed uniform record has exactly eight 4-byte fields in the
order u32 nx, ny, nz, padding, f32 inv_dx, inv_dy, inv_dz, trailing padding
(32 bytes total), matching the kernel-side layout, and the packed values are
the grid dimensions and inverse spacings. -/
theorem gpu_params_layout_spec :
    gpuParamsLayout = kernelParamsLayout ∧
    gpuParamsLayout.length = 8 ∧
    layoutByteSize gpuParamsLayout = 32 ∧
    layoutByteSize kernelParamsLayout = 32 ∧
    params.nx = NX ∧ params.ny = NY ∧ params.nz = NZ ∧ params._pad = 0 ∧
    params.inv_dx = 1 / DX ∧ params.inv_dy = 1 / DY ∧ params.inv_dz = 1 / DZ ∧
    params._pad2 = 0 :=
  ⟨rfl, rfl, rfl, rfl, rfl, rfl, rfl, rfl, rfl, rfl, rfl, rfl⟩

/-- C10: source and probe coordinates lie strictly inside the grid, and the
4-byte source write and probe copy both fall entirely within the
`NX * NY * NZ * 4`-byte Ez buffer. -/
theorem src_probe_in_bounds :
    SRC_I < NX ∧ SRC_J < NY ∧ SRC_K < NZ ∧
    PROBE_I < NX ∧ PROBE_J < NY ∧ PROBE_K < NZ ∧
    srcByteOffset + 4 ≤ TOTAL * 4 ∧
    probeByteOffset + 4 ≤ TOTAL * 4 := by
  refine ⟨by decide, by decide, by decide, by decide, by decide, by decide, ?_, ?_⟩
  · decide
  · decide

end FDTD
